import Mathlib

/-!
Shallow embedding of the StandUp Voice text-to-speech backend core:
the TTS orchestrator (`apps/api/src/services/TTSOrchestrator.ts`), the
file storage manager (`FileManager`), the audio delivery controller
(`apps/api/src/controllers/AudioController.ts`) and the express error
handling middleware.  Asynchronous provider calls are modelled by
recording, for each provider, the outcome its probe and its convert
attempt would produce during the run under consideration; machine maps
are modelled as association lists.
-/

/-- `ProcessingStatus` enum of `TTSOrchestrator.ts`. -/
inductive ProcessingStatus where
  | pending
  | processing
  | completed
  | failed
deriving DecidableEq, Repr

/-- `TTS_ERROR_CODES` of `providers/interfaces.ts`. -/
inductive TTSErrorCode where
  | serviceUnavailable
  | conversionFailed
  | timeout
  | unsupportedContent
  | invalidSettings
  | networkError
  | apiKeyInvalid
deriving DecidableEq, Repr

/-- `TTSError` of `providers/interfaces.ts` (message, code, originating provider). -/
structure TTSError where
  message : String
  code : TTSErrorCode
  provider : String
deriving DecidableEq, Repr

/-- `TTSConversionResult` of `providers/interfaces.ts`.  The audio buffer is a
byte sequence; the duration estimate is kept as an abstract numeric value. -/
structure TTSConversionResult where
  audioBuffer : List Nat
  duration : Nat
  format : String
  ttsService : String
  voice : Option String
deriving DecidableEq, Repr

/-- Outcome of a provider's `isAvailable()` probe during one orchestrator run:
it resolves `true`, resolves `false`, or throws (rejects). -/
inductive ProbeOutcome where
  | available
  | unavailable
  | probeError
deriving DecidableEq, Repr

/-- Outcome of racing a provider's `convert()` against the orchestrator
timeout during one run: the call succeeds within the timeout, fails with a
`TTSError`, or the timeout promise wins the race. -/
inductive AttemptOutcome where
  | success (r : TTSConversionResult)
  | failure (e : TTSError)
  | timesOut
deriving DecidableEq, Repr

/-- An `ITTSProvider` as the orchestrator observes it in one run: its
identity plus the behaviour of its probe and its conversion attempt. -/
structure Provider where
  name : String
  priority : Int
  probe : ProbeOutcome
  attempt : AttemptOutcome
deriving DecidableEq, Repr

/-- `ConversionStatus` record of `TTSOrchestrator.ts` (times in ms). -/
structure ConversionStatus where
  id : String
  status : ProcessingStatus
  progress : Nat
  error : Option String
  startTime : Nat
  endTime : Option Nat
deriving DecidableEq, Repr

/-- Association-list lookup, modelling `Map.get`. -/
def getEntry {κ : Type} [DecidableEq κ] {α : Type} : List (κ × α) → κ → Option α
  | [], _ => none
  | e :: rest, k => if e.1 = k then some e.2 else getEntry rest k

/-- Association-list update, modelling `Map.set`: overwrite the existing
entry in place, else append a new one. -/
def setEntry {κ : Type} [DecidableEq κ] {α : Type} : List (κ × α) → κ → α → List (κ × α)
  | [], k, v => [(k, v)]
  | e :: rest, k, v =>
    if e.1 = k then (k, v) :: rest else e :: setEntry rest k v

/-- Association-list deletion, modelling `Map.delete` / `fs.unlink`. -/
def removeEntry {κ : Type} [DecidableEq κ] {α : Type} (m : List (κ × α)) (k : κ) :
    List (κ × α) :=
  m.filter (fun e => !(decide (e.1 = k)))

/-- In-memory tables of `TTSOrchestrator`: `activeConversions` and
`conversionResults`, keyed by conversion id. -/
structure OrchestratorState where
  activeConversions : List (String × ConversionStatus)
  conversionResults : List (String × TTSConversionResult)
deriving DecidableEq, Repr

/-- The empty orchestrator state (fresh `TTSOrchestrator`). -/
def emptyState : OrchestratorState :=
  { activeConversions := [], conversionResults := [] }

/-- The `TTSError` thrown for empty content (`TTSOrchestrator.convert`). -/
def noContentError : TTSError :=
  { message := "Content cannot be empty"
    code := TTSErrorCode.unsupportedContent
    provider := "TTSOrchestrator" }

/-- The `TTSError` thrown for over-length content (`TTSOrchestrator.convert`). -/
def contentTooLongError : TTSError :=
  { message := "Content too long"
    code := TTSErrorCode.unsupportedContent
    provider := "TTSOrchestrator" }

/-- The `TTSError` thrown when no provider is available. -/
def noProvidersAvailableError : TTSError :=
  { message := "No TTS providers are currently available"
    code := TTSErrorCode.serviceUnavailable
    provider := "TTSOrchestrator" }

/-- The fallback `TTSError` when every candidate failed without a recorded
`lastError` (cannot happen for a non-empty candidate list). -/
def allProvidersFailedError : TTSError :=
  { message := "All TTS providers failed"
    code := TTSErrorCode.serviceUnavailable
    provider := "TTSOrchestrator" }

/-- The `TTSError` produced when the timeout promise wins the race in
`attemptConversion` / `createTimeoutPromise`. -/
def timeoutRaceError (providerName : String) : TTSError :=
  { message := "Provider timed out"
    code := TTSErrorCode.timeout
    provider := providerName }

/-- JavaScript `String.prototype.trim` on the character sequence: drop
leading and trailing whitespace. -/
def jsTrim (s : String) : String :=
  String.mk (((s.toList.dropWhile Char.isWhitespace).reverse.dropWhile
    Char.isWhitespace).reverse)

/-- The validation guards at the top of `TTSOrchestrator.convert`:
`!content || content.trim().length === 0` rejects blank content, then
`content.length > 2000` rejects over-length content (raw length). -/
def validateContent (content : String) : Option TTSError :=
  if (jsTrim content).length = 0 then some noContentError
  else if content.length > 2000 then some contentTooLongError
  else none

/-- `TTSOrchestrator.getAvailableProviders`: walk the registry in priority
order, calling each probe inside try/catch; a probe that resolves `true`
adds the provider, any other outcome (false or thrown) is skipped and the
loop continues with the remaining providers. -/
def getAvailableProviders : List Provider → List Provider
  | [] => []
  | p :: rest =>
    match p.probe with
    | ProbeOutcome.available => p :: getAvailableProviders rest
    | ProbeOutcome.unavailable => getAvailableProviders rest
    | ProbeOutcome.probeError => getAvailableProviders rest

/-- `TTSOrchestrator.attemptConversion`: race the provider's convert call
against the timeout promise; a timeout surfaces as a timeout `TTSError`. -/
def attemptConversion (p : Provider) : Except TTSError TTSConversionResult :=
  match p.attempt with
  | AttemptOutcome.success r => Except.ok r
  | AttemptOutcome.failure e => Except.error e
  | AttemptOutcome.timesOut => Except.error (timeoutRaceError p.name)

/-- The error a failing candidate contributes as `lastError`
(only meaningful when `attemptConversion` fails). -/
def attemptErrorOf (p : Provider) : TTSError :=
  match attemptConversion p with
  | Except.error e => e
  | Except.ok _ => allProvidersFailedError

/-- Does the candidate's attempt succeed within the timeout? -/
def attemptSucceeds (p : Provider) : Bool :=
  match p.attempt with
  | AttemptOutcome.success _ => true
  | _ => false

/-- The candidate loop of `TTSOrchestrator.convert` (lines 92-128): try each
candidate in order; on success return its result immediately; on failure
record the error as `lastError` and continue; when exhausted, throw the
last error (or the generic fallback).  Returns the loop outcome, the names
of the candidates on which `convert` was invoked, and the successive
`lastError` recordings. -/
def tryProviders : List Provider → Option TTSError →
    Except TTSError TTSConversionResult × List String × List TTSError
  | [], lastError =>
    (Except.error (lastError.getD allProvidersFailedError), [], [])
  | p :: rest, _ =>
    match attemptConversion p with
    | Except.ok r => (Except.ok r, [p.name], [])
    | Except.error e =>
      let next := tryProviders rest (some e)
      (next.1, p.name :: next.2.1, e :: next.2.2)

/-- The fresh status record created at the top of `convert`. -/
def initialStatus (conversionId : String) (now : Nat) : ConversionStatus :=
  { id := conversionId
    status := ProcessingStatus.pending
    progress := 0
    error := none
    startTime := now
    endTime := none }

/-- `TTSOrchestrator.updateConversionStatus`: overwrite status, progress and
error of the record; stamp `endTime` when the new status is terminal. -/
def updateConversionStatus (cs : ConversionStatus) (now : Nat)
    (status : ProcessingStatus) (progress : Nat) (error : Option String) :
    ConversionStatus :=
  { cs with
    status := status
    progress := progress
    error := error
    endTime :=
      if status = ProcessingStatus.completed ∨ status = ProcessingStatus.failed then
        some now
      else cs.endTime }

/-- Observable outcome of one `TTSOrchestrator.convert` run: the returned or
thrown value, the successive `(status, progress)` values the conversion's
status record takes, the names of the providers whose `isAvailable()` was
probed, the names of the candidates whose `convert` was invoked, and the
successive `lastError` recordings. -/
structure ConvertOutcome where
  result : Except TTSError TTSConversionResult
  trace : List (ProcessingStatus × Nat)
  probed : List String
  attempted : List String
  recordedErrors : List TTSError
deriving Repr

/-- `TTSOrchestrator.convert` (lines 47-148).  The conversion id and the
clock reading are passed in (`generateConversionId` / `Date.now`).  Mirrors
the source: create the Pending record; validate (failures skip straight to
the catch block, which marks the record Failed with progress 0); set
Processing 10; probe availability; fail with `ServiceUnavailable` when no
candidate remains; set Processing 30; run the candidate loop, setting
Processing 50 before each attempt; on first success mark Completed 100 and
store the result; when the loop exhausts, the thrown error reaches the
catch block and the record is marked Failed with progress 0. -/
def convert (st : OrchestratorState) (conversionId : String) (now : Nat)
    (content : String) (providers : List Provider) :
    ConvertOutcome × OrchestratorState :=
  let init := initialStatus conversionId now
  match validateContent content with
  | some e =>
    let final := updateConversionStatus init now ProcessingStatus.failed 0 (some e.message)
    ({ result := Except.error e
       trace := [(ProcessingStatus.pending, 0), (ProcessingStatus.failed, 0)]
       probed := []
       attempted := []
       recordedErrors := [] },
     { st with activeConversions := setEntry st.activeConversions conversionId final })
  | none =>
    let s1 := updateConversionStatus init now ProcessingStatus.processing 10 none
    let probed := providers.map (fun p => p.name)
    let avail := getAvailableProviders providers
    if avail.isEmpty then
      let final := updateConversionStatus s1 now ProcessingStatus.failed 0
        (some noProvidersAvailableError.message)
      ({ result := Except.error noProvidersAvailableError
         trace := [(ProcessingStatus.pending, 0), (ProcessingStatus.processing, 10),
                   (ProcessingStatus.failed, 0)]
         probed := probed
         attempted := []
         recordedErrors := [] },
       { st with activeConversions := setEntry st.activeConversions conversionId final })
    else
      let s2 := updateConversionStatus s1 now ProcessingStatus.processing 30 none
      let loop := tryProviders avail none
      match loop.1 with
      | Except.ok r =>
        let final := updateConversionStatus s2 now ProcessingStatus.completed 100 none
        ({ result := Except.ok r
           trace := [(ProcessingStatus.pending, 0), (ProcessingStatus.processing, 10),
                     (ProcessingStatus.processing, 30)] ++
                    loop.2.1.map (fun _ => (ProcessingStatus.processing, 50)) ++
                    [(ProcessingStatus.completed, 100)]
           probed := probed
           attempted := loop.2.1
           recordedErrors := loop.2.2 },
         { activeConversions := setEntry st.activeConversions conversionId final
           conversionResults := setEntry st.conversionResults conversionId r })
      | Except.error e =>
        let final := updateConversionStatus s2 now ProcessingStatus.failed 0 (some e.message)
        ({ result := Except.error e
           trace := [(ProcessingStatus.pending, 0), (ProcessingStatus.processing, 10),
                     (ProcessingStatus.processing, 30)] ++
                    loop.2.1.map (fun _ => (ProcessingStatus.processing, 50)) ++
                    [(ProcessingStatus.failed, 0)]
           probed := probed
           attempted := loop.2.1
           recordedErrors := loop.2.2 },
         { st with activeConversions := setEntry st.activeConversions conversionId final })

/-- `TTSOrchestrator.getStatus`. -/
def getStatus (st : OrchestratorState) (id : String) : Option ConversionStatus :=
  getEntry st.activeConversions id

/-- `TTSOrchestrator.getResult`. -/
def getResult (st : OrchestratorState) (id : String) : Option TTSConversionResult :=
  getEntry st.conversionResults id

/-- The cutoff computed by `TTSOrchestrator.cleanup`:
`Date.now() - olderThanMinutes * 60 * 1000`. -/
def conversionCutoff (now olderThanMinutes : Nat) : Int :=
  (now : Int) - (olderThanMinutes : Int) * 60 * 1000

/-- Is the status record strictly older than the cleanup cutoff
(`status.startTime < cutoffTime`)? -/
def statusIsOld (now olderThanMinutes : Nat) (cs : ConversionStatus) : Bool :=
  decide ((cs.startTime : Int) < conversionCutoff now olderThanMinutes)

/-- `TTSOrchestrator.cleanup` (lines 210-219): delete every status entry
whose `startTime` is strictly before the cutoff, together with the result
entry stored under the same id. -/
def cleanup (st : OrchestratorState) (now olderThanMinutes : Nat) : OrchestratorState :=
  let oldIds := (st.activeConversions.filter
    (fun e => statusIsOld now olderThanMinutes e.2)).map (fun e => e.1)
  { activeConversions := st.activeConversions.filter
      (fun e => !(statusIsOld now olderThanMinutes e.2))
    conversionResults := st.conversionResults.filter
      (fun e => !(oldIds.contains e.1)) }

/-! ## FileManager (`services/FileManager.ts`) -/

/-- Sidecar metadata written next to an audio file (`FileMetadata`). -/
structure FileMetadata where
  size : Nat
  format : String
  duration : Nat
deriving DecidableEq, Repr

/-- Content of one entry of the audio directory: either raw audio bytes or
a parsed sidecar metadata record. -/
inductive FileContent where
  | audio (bytes : List Nat)
  | meta (m : FileMetadata)
deriving DecidableEq, Repr

/-- A file name in the audio directory.  The source builds the path as
`audioId + "." + ext` with `path.join`; since generated ids
(`audio_<timestamp>_<random>`) contain no dot, distinct `(base, ext)` pairs
correspond to distinct paths, so the name is modelled as the pair. -/
structure FileName where
  base : String
  ext : String
deriving DecidableEq, Repr

/-- The audio directory as a map from file names to contents. -/
structure FileStore where
  files : List (FileName × FileContent)
deriving DecidableEq, Repr

/-- The path of the audio blob written by `saveAudioFile`:
`audioId + "." + metadata.format`. -/
def audioFileName (audioId format : String) : FileName :=
  { base := audioId, ext := format }

/-- The path of the sidecar metadata file: `audioId + ".meta"`. -/
def metaFileName (audioId : String) : FileName :=
  { base := audioId, ext := "meta" }

/-- `FileManager.saveAudioFile` (lines 41-85): reject buffers above the
configured ceiling, write the audio bytes under `id.format`, then write
the sidecar metadata (with `size` set to the byte count) under `id.meta`. -/
def saveAudioFile (fs : FileStore) (audioId : String) (audioBuffer : List Nat)
    (format : String) (duration : Nat) (maxFileSize : Nat) :
    Except String FileStore :=
  if audioBuffer.length > maxFileSize then
    Except.error "Audio file too large"
  else
    let fs1 : FileStore :=
      { files := setEntry fs.files (audioFileName audioId format)
          (FileContent.audio audioBuffer) }
    let fullMetadata : FileMetadata :=
      { size := audioBuffer.length, format := format, duration := duration }
    Except.ok
      { files := setEntry fs1.files (metaFileName audioId)
          (FileContent.meta fullMetadata) }

/-- The extension probe list of `FileManager.findAudioFile`. -/
def possibleExtensions : List String := ["mp3", "wav", "ogg"]

/-- `FileManager.findAudioFile` (lines 284-298): try `id.mp3`, `id.wav`,
`id.ogg` in order and return the first existing path. -/
def findAudioFile (fs : FileStore) (audioId : String) : Option FileName :=
  possibleExtensions.findSome? (fun ext =>
    if (getEntry fs.files (audioFileName audioId ext)).isSome then
      some (audioFileName audioId ext)
    else none)

/-- `FileManager.getAudioFile`: resolve the path, then read the bytes;
`null` when no path resolves. -/
def getAudioFile (fs : FileStore) (audioId : String) : Option (List Nat) :=
  match findAudioFile fs audioId with
  | none => none
  | some fp =>
    match getEntry fs.files fp with
    | some (FileContent.audio b) => some b
    | _ => none

/-- `FileManager.audioFileExists`. -/
def audioFileExists (fs : FileStore) (audioId : String) : Bool :=
  (findAudioFile fs audioId).isSome

/-- `FileManager.getAudioMetadata`: read and parse `id.meta`. -/
def getAudioMetadata (fs : FileStore) (audioId : String) : Option FileMetadata :=
  match getEntry fs.files (metaFileName audioId) with
  | some (FileContent.meta m) => some m
  | _ => none

/-- `FileManager.deleteAudioFile` (lines 149-175): unlink the resolved audio
path if any, unlink `id.meta` if present, return whether anything was
removed. -/
def deleteAudioFile (fs : FileStore) (audioId : String) : FileStore × Bool :=
  let found := findAudioFile fs audioId
  let step1 : FileStore × Nat :=
    match found with
    | some fp => ({ files := removeEntry fs.files fp }, 1)
    | none => (fs, 0)
  let mp := metaFileName audioId
  let step2 : FileStore × Nat :=
    if (getEntry step1.1.files mp).isSome then
      ({ files := removeEntry step1.1.files mp }, step1.2 + 1)
    else
      (step1.1, step1.2)
  (step2.1, decide (step2.2 > 0))

/-- One entry of a storage directory as `cleanupDirectory` observes it:
its name and its modification time (ms). -/
structure StoredFile where
  name : String
  mtime : Nat
deriving DecidableEq, Repr

/-- `FileManager.cleanupDirectory` (lines 319-345): walk the directory,
unlinking every file whose `mtime` is strictly before the cutoff and
counting the deletions; the remaining files and the count are returned. -/
def cleanupDirectory : List StoredFile → Int → List StoredFile × Nat
  | [], _ => ([], 0)
  | f :: rest, cutoffTime =>
    let next := cleanupDirectory rest cutoffTime
    if (f.mtime : Int) < cutoffTime then
      (next.1, next.2 + 1)
    else
      (f :: next.1, next.2)

/-! ## AudioController (`controllers/AudioController.ts`) -/

/-- JavaScript `String.prototype.toLowerCase` on the character sequence. -/
def lowerString (s : String) : String :=
  String.mk (s.toList.map Char.toLower)

/-- `AudioController.getContentType` (lines 333-346): map the stored format
(lower-cased) to a MIME type, defaulting to `audio/mpeg`. -/
def getContentType (format : String) : String :=
  match lowerString format with
  | "mp3" => "audio/mpeg"
  | "wav" => "audio/wav"
  | "ogg" => "audio/ogg"
  | "opus" => "audio/opus"
  | _ => "audio/mpeg"

/-- One attempted match of the regular expression `bytes=(\d+)-(\d*)` at a
fixed start position: the literal `bytes=`, then one or more digits
(capture 1), then `-`, then zero or more digits (capture 2). -/
def matchRangeAt (cs : List Char) : Option (List Char × List Char) :=
  if cs.take 6 = "bytes=".toList then
    if ((cs.drop 6).takeWhile Char.isDigit).isEmpty then none
    else
      match (cs.drop 6).dropWhile Char.isDigit with
      | '-' :: rest2 =>
        some ((cs.drop 6).takeWhile Char.isDigit, rest2.takeWhile Char.isDigit)
      | _ => none
  else none

/-- Leftmost match of `bytes=(\d+)-(\d*)` over the whole header
(`range.match(...)` is unanchored): try every start position left to
right. -/
def searchRange : List Char → Option (List Char × List Char)
  | [] => none
  | c :: cs =>
    match matchRangeAt (c :: cs) with
    | some r => some r
    | none => searchRange cs

/-- `parseInt(digits, 10)` on a non-empty digit capture. -/
def natOfDigits (ds : List Char) : Nat :=
  ds.foldl (fun acc c => acc * 10 + (c.toNat - 48)) 0

/-- The range-header parsing of `streamAudio` (line 98-101): run the regex;
on a match, capture 1 is the start and capture 2, when non-empty, the end
(an empty capture 2 is falsy, so the end defaults to the end of file). -/
def parseRangeHeader (s : String) : Option (Nat × Option Nat) :=
  match searchRange s.toList with
  | none => none
  | some (d1, d2) =>
    some (natOfDigits d1, if d2.isEmpty then none else some (natOfDigits d2))

/-- Observable HTTP response of the streaming endpoint. -/
structure StreamResponse where
  status : Nat
  contentType : String
  contentRange : Option String
  contentLength : Option Nat
  body : Option (List Nat)
  errorCode : Option String
deriving DecidableEq, Repr

/-- `AudioController.streamAudio` (lines 66-140) after the existence and
metadata guards have passed (the claim-relevant core; the 404 paths for a
missing file or missing metadata are upstream of this fragment): set the
Content-Type from the stored format; without a `Range` header send the
whole buffer with status 200; with one, parse it — no regex match is a 400
`INVALID_RANGE_HEADER`; a start or end at or beyond the buffer length, or a
start beyond the end, is a 416; otherwise reply 206 with
`Content-Range: bytes start-end/size`, `Content-Length = end-start+1` and
the byte slice `buffer.slice(start, end+1)` as body. -/
def streamAudioFound (format : String) (audioBuffer : List Nat)
    (range : Option String) : StreamResponse :=
  let ct := getContentType format
  match range with
  | none =>
    { status := 200, contentType := ct, contentRange := none
      contentLength := some audioBuffer.length
      body := some audioBuffer, errorCode := none }
  | some r =>
    match parseRangeHeader r with
    | none =>
      { status := 400, contentType := ct, contentRange := none
        contentLength := none, body := none
        errorCode := some "INVALID_RANGE_HEADER" }
    | some pr =>
      let start := pr.1
      let endPos :=
        match pr.2 with
        | some e => e
        | none => audioBuffer.length - 1
      if start ≥ audioBuffer.length ∨ endPos ≥ audioBuffer.length ∨ start > endPos then
        { status := 416, contentType := ct, contentRange := none
          contentLength := none, body := none
          errorCode := some "INVALID_RANGE" }
      else
        { status := 206, contentType := ct
          contentRange := some ("bytes " ++ toString start ++ "-" ++
            toString endPos ++ "/" ++ toString audioBuffer.length)
          contentLength := some (endPos - start + 1)
          body := some ((audioBuffer.drop start).take (endPos + 1 - start))
          errorCode := none }

/-- Observable HTTP response of the download endpoint. -/
structure DownloadResponse where
  status : Nat
  contentType : String
  contentLength : Nat
  body : List Nat
deriving DecidableEq, Repr

/-- `AudioController.downloadAudio` (lines 198-215) after its guards: serve
the whole buffer with the Content-Type derived from the stored format. -/
def downloadAudioFound (format : String) (audioBuffer : List Nat) :
    DownloadResponse :=
  { status := 200, contentType := getContentType format
    contentLength := audioBuffer.length, body := audioBuffer }

/-! ## Error-handling middleware (`middleware/errorHandler.ts`) -/

/-- An error reaching the express error handler: an `ApiError` (carrying
its own status code), a thrown orchestrator `TTSError` (whose `name`
property is the string `TTSError`), or any other error identified by its
`name`. -/
inductive ServerError where
  | apiError (statusCode : Nat) (code : String) (message : String)
  | thrownTTSError (e : TTSError)
  | namedError (name : String) (message : String)
deriving DecidableEq, Repr

/-- The `name` property of the error object. -/
def errorName : ServerError → String
  | ServerError.apiError _ _ _ => "ApiError"
  | ServerError.thrownTTSError _ => "TTSError"
  | ServerError.namedError n _ => n

/-- `errorHandler` (middleware): an `instanceof ApiError` responds with its
own status code; otherwise an error whose `name` is `ValidationError`
responds 400; every other error responds 500 `INTERNAL_ERROR`. -/
def errorHandlerStatus (e : ServerError) : Nat :=
  match e with
  | ServerError.apiError sc _ _ => sc
  | _ => if errorName e = "ValidationError" then 400 else 500

/-- HTTP status of `POST /api/tts/convert` (`TTSController.convertText`):
the zod schema rejects content of raw length 0 or above 2000 with 400;
otherwise the orchestrator runs, a success is a 200, and a thrown
`TTSError` is passed to `next(error)` and hence to `errorHandler`. -/
def convertEndpointStatus (st : OrchestratorState) (conversionId : String)
    (now : Nat) (content : String) (providers : List Provider) : Nat :=
  if content.length = 0 ∨ content.length > 2000 then 400
  else
    match (convert st conversionId now content providers).1.result with
    | Except.ok _ => 200
    | Except.error e => errorHandlerStatus (ServerError.thrownTTSError e)

/-! ## State-machine vocabulary for conversion-status traces -/

/-- Is the status terminal (`Completed` or `Failed`)? -/
def isTerminal : ProcessingStatus → Bool
  | ProcessingStatus.completed => true
  | ProcessingStatus.failed => true
  | _ => false

/-- The transition relation of the specified conversion state machine:
`Pending → Processing`, `Pending → Failed`, `Processing → Processing`
(progress update), `Processing → Completed`, `Processing → Failed`;
terminal states admit no successor. -/
def stepAllowed : ProcessingStatus → ProcessingStatus → Bool
  | ProcessingStatus.pending, ProcessingStatus.processing => true
  | ProcessingStatus.pending, ProcessingStatus.failed => true
  | ProcessingStatus.processing, ProcessingStatus.processing => true
  | ProcessingStatus.processing, ProcessingStatus.completed => true
  | ProcessingStatus.processing, ProcessingStatus.failed => true
  | _, _ => false

/-- One admissible step of the status record: the state transition is
allowed, and progress does not decrease unless the step enters a terminal
state. -/
def traceStep (a b : ProcessingStatus × Nat) : Prop :=
  stepAllowed a.1 b.1 = true ∧ (isTerminal b.1 = false → a.2 ≤ b.2)

/-! ## Concrete fixtures used by witnesses -/

/-- Scenario A: provider P1 (priority 1) whose convert times out. -/
def provP1 : Provider :=
  { name := "P1", priority := 1, probe := ProbeOutcome.available
    attempt := AttemptOutcome.timesOut }

/-- Scenario A: the result P2 returns. -/
def resultP2 : TTSConversionResult :=
  { audioBuffer := [1, 2, 3, 4, 5], duration := 25, format := "mp3"
    ttsService := "P2", voice := none }

/-- Scenario A: provider P2 (priority 2) whose convert succeeds. -/
def provP2 : Provider :=
  { name := "P2", priority := 2, probe := ProbeOutcome.available
    attempt := AttemptOutcome.success resultP2 }

/-- A provider whose availability probe throws. -/
def provProbeErr : Provider :=
  { name := "PE", priority := 2, probe := ProbeOutcome.probeError
    attempt := AttemptOutcome.timesOut }

/-- A provider reporting unavailable. -/
def provUnavailable : Provider :=
  { name := "PU", priority := 1, probe := ProbeOutcome.unavailable
    attempt := AttemptOutcome.timesOut }

/-- Scenario B: a registry in which every probe reports unavailable or
throws. -/
def provAllDown : List Provider := [provUnavailable, provProbeErr]

/-- A third available provider, of lowest priority. -/
def provP3 : Provider :=
  { name := "P3", priority := 3, probe := ProbeOutcome.available
    attempt := AttemptOutcome.timesOut }

/-- An old status record (cleanup fixture). -/
def csOld : ConversionStatus :=
  { id := "old", status := ProcessingStatus.completed, progress := 100
    error := none, startTime := 0, endTime := some 5 }

/-- A recent status record (cleanup fixture). -/
def csNew : ConversionStatus :=
  { id := "new", status := ProcessingStatus.completed, progress := 100
    error := none, startTime := 1000000000, endTime := some 1000000000 }

/-- Orchestrator state holding one old and one recent conversion. -/
def stCleanup : OrchestratorState :=
  { activeConversions := [("old", csOld), ("new", csNew)]
    conversionResults := [("old", resultP2), ("new", resultP2)] }

/-- Stored files fixture for directory cleanup. -/
def filesCleanup : List StoredFile :=
  [{ name := "f1", mtime := 0 }, { name := "f2", mtime := 1000000000 }]

/-- The store produced by saving a 3-byte `opus` buffer under id `a1`
into an empty store (C9 fixture). -/
def fsSavedOpus : FileStore :=
  match saveAudioFile { files := [] } "a1" [1, 2, 3] "opus" 5 100 with
  | Except.ok fs => fs
  | Except.error _ => { files := [] }

/-! ## Map lemmas -/

theorem getEntry_setEntry_self {κ : Type} [DecidableEq κ] {α : Type}
    (m : List (κ × α)) (k : κ) (v : α) :
    getEntry (setEntry m k v) k = some v := by
  induction m with
  | nil => simp [setEntry, getEntry]
  | cons e rest ih =>
    by_cases h : e.1 = k
    · simp [setEntry, getEntry, h]
    · simp [setEntry, getEntry, h, ih]

theorem getEntry_setEntry_ne {κ : Type} [DecidableEq κ] {α : Type}
    (m : List (κ × α)) (k k' : κ) (v : α) (h : k' ≠ k) :
    getEntry (setEntry m k v) k' = getEntry m k' := by
  have hk : ¬ (k = k') := fun hc => h hc.symm
  induction m with
  | nil => simp [setEntry, getEntry, hk]
  | cons e rest ih =>
    by_cases he : e.1 = k
    · have he' : ¬ (e.1 = k') := by rw [he]; exact hk
      simp [setEntry, getEntry, he, hk, he']
    · by_cases he' : e.1 = k'
      · simp [setEntry, getEntry, he, he', h]
      · simp [setEntry, getEntry, he, he', ih]

theorem getEntry_removeEntry_ne {κ : Type} [DecidableEq κ] {α : Type}
    (m : List (κ × α)) (k k' : κ) (h : k' ≠ k) :
    getEntry (removeEntry m k) k' = getEntry m k' := by
  induction m with
  | nil => simp [removeEntry, getEntry]
  | cons e rest ih =>
    by_cases he : e.1 = k
    · have he' : ¬ (e.1 = k') := by rw [he]; exact fun hc => h hc.symm
      simp only [removeEntry, List.filter_cons] at ih ⊢
      simp only [he, decide_True, Bool.not_true]
      simpa [getEntry, he'] using ih
    · by_cases he' : e.1 = k'
      · simp [removeEntry, List.filter_cons, he, getEntry, he', h]
      · simp only [removeEntry, List.filter_cons] at ih ⊢
        simp [he, getEntry, he', ih]

/-! ## Availability probing -/

theorem getAvailableProviders_eq_filter (providers : List Provider) :
    getAvailableProviders providers =
      providers.filter (fun p => decide (p.probe = ProbeOutcome.available)) := by
  induction providers with
  | nil => rfl
  | cons p rest ih =>
    cases hp : p.probe <;>
      simp [getAvailableProviders, hp, List.filter_cons, ih]

/-- C5: a provider whose `isAvailable()` probe throws is treated as
unavailable and never prevents the remaining providers from being probed;
the candidate list is exactly the providers that reported available, in
registry priority order (not probe-completion order). -/
theorem probe_error_isolated_candidates_in_registry_order
    (providers : List Provider) :
    getAvailableProviders providers =
      providers.filter (fun p => decide (p.probe = ProbeOutcome.available)) ∧
    (∀ xs p ys, providers = xs ++ p :: ys → p.probe = ProbeOutcome.probeError →
      getAvailableProviders providers =
        getAvailableProviders xs ++ getAvailableProviders ys) := by
  refine ⟨getAvailableProviders_eq_filter providers, ?_⟩
  intro xs p ys hsplit hperr
  subst hsplit
  rw [getAvailableProviders_eq_filter, getAvailableProviders_eq_filter,
    getAvailableProviders_eq_filter, List.filter_append, List.filter_cons]
  simp [hperr]

/-- Witness for C5 at a concrete registry: the erroring probe `PE` is
filtered out and the siblings before and after it both survive, in order. -/
theorem probe_error_isolated_witness :
    [provP1, provProbeErr, provP3] = [provP1] ++ provProbeErr :: [provP3] ∧
    provProbeErr.probe = ProbeOutcome.probeError ∧
    getAvailableProviders [provP1, provProbeErr, provP3] =
      getAvailableProviders [provP1] ++ getAvailableProviders [provP3] ∧
    getAvailableProviders [provP1, provProbeErr, provP3] = [provP1, provP3] :=
  ⟨rfl, rfl,
    (probe_error_isolated_candidates_in_registry_order
      [provP1, provProbeErr, provP3]).2 [provP1] provProbeErr [provP3] rfl rfl,
    by decide⟩

/-- C2: content whose trimmed length is 0 or whose raw length exceeds 2000
makes `convert` fail with the orchestrator's validation error (the
`TTS_UNSUPPORTED_CONTENT`-coded `TTSError` raised by `TTSOrchestrator`
itself, the code-level form of the spec's ValidationError), with no probe
and no convert call on any provider, and the conversion status is set to
Failed. -/
theorem invalid_content_rejected_without_provider_contact
    (st : OrchestratorState) (conversionId : String) (now : Nat)
    (content : String) (providers : List Provider)
    (h : (jsTrim content).length = 0 ∨ content.length > 2000) :
    (∃ e, (convert st conversionId now content providers).1.result =
        Except.error e ∧
      e.code = TTSErrorCode.unsupportedContent ∧ e.provider = "TTSOrchestrator") ∧
    (convert st conversionId now content providers).1.probed = [] ∧
    (convert st conversionId now content providers).1.attempted = [] ∧
    (convert st conversionId now content providers).1.trace =
      [(ProcessingStatus.pending, 0), (ProcessingStatus.failed, 0)] ∧
    (getStatus (convert st conversionId now content providers).2
        conversionId).map (fun cs => (cs.status, cs.progress)) =
      some (ProcessingStatus.failed, 0) := by
  have hv : validateContent content = some noContentError ∨
      validateContent content = some contentTooLongError := by
    unfold validateContent
    by_cases h0 : (jsTrim content).length = 0
    · exact Or.inl (by simp [h0])
    · have h1 : content.length > 2000 := h.resolve_left h0
      exact Or.inr (by simp [h0, h1])
  rcases hv with hv | hv <;>
  · rw [convert, hv]
    refine ⟨⟨_, rfl, rfl, rfl⟩, rfl, rfl, rfl, ?_⟩
    rw [getStatus, getEntry_setEntry_self]
    rfl

/-- Witness for C2 at whitespace-only content: no probe, no attempt,
status Failed. -/
theorem invalid_content_rejected_witness :
    ((jsTrim "   ").length = 0 ∨ ("   " : String).length > 2000) ∧
    ((∃ e, (convert emptyState "c2" 0 "   " [provP1]).1.result =
        Except.error e ∧
      e.code = TTSErrorCode.unsupportedContent ∧ e.provider = "TTSOrchestrator") ∧
    (convert emptyState "c2" 0 "   " [provP1]).1.probed = [] ∧
    (convert emptyState "c2" 0 "   " [provP1]).1.attempted = [] ∧
    (convert emptyState "c2" 0 "   " [provP1]).1.trace =
      [(ProcessingStatus.pending, 0), (ProcessingStatus.failed, 0)] ∧
    (getStatus (convert emptyState "c2" 0 "   " [provP1]).2 "c2").map
      (fun cs => (cs.status, cs.progress)) =
      some (ProcessingStatus.failed, 0)) :=
  ⟨Or.inl (by decide),
    invalid_content_rejected_without_provider_contact emptyState "c2" 0 "   "
      [provP1] (Or.inl (by decide))⟩

/-- C8 counterexample: the stored format `opus` is mapped to `audio/opus`
by `getContentType`, not to the claimed default `audio/mpeg`. -/
theorem contentType_opus_not_default :
    (streamAudioFound "opus" [0] none).contentType = "audio/opus" ∧
    ¬ (streamAudioFound "opus" [0] none).contentType = "audio/mpeg" ∧
    (downloadAudioFound "opus" [0]).contentType = "audio/opus" := by
  decide

/-- C8 amended: the Content-Type of stream and download responses is
derived from the stored format by exactly the mapping `mp3 → audio/mpeg`,
`wav → audio/wav`, `ogg → audio/ogg`, `opus → audio/opus` (matched on the
lower-cased format), and every other format maps to the default
`audio/mpeg`. -/
theorem contentType_mapping (format : String) (audioBuffer : List Nat)
    (range : Option String) (f : String) :
    (streamAudioFound format audioBuffer range).contentType =
      getContentType format ∧
    (downloadAudioFound format audioBuffer).contentType = getContentType format ∧
    getContentType "mp3" = "audio/mpeg" ∧
    getContentType "wav" = "audio/wav" ∧
    getContentType "ogg" = "audio/ogg" ∧
    getContentType "opus" = "audio/opus" ∧
    (lowerString f ≠ "mp3" → lowerString f ≠ "wav" → lowerString f ≠ "ogg" →
      lowerString f ≠ "opus" → getContentType f = "audio/mpeg") := by
  refine ⟨?_, rfl, by decide, by decide, by decide, by decide, ?_⟩
  · cases range with
    | none => rfl
    | some r =>
      simp only [streamAudioFound]
      cases hpr : parseRangeHeader r with
      | none => rfl
      | some pr =>
        rcases pr with ⟨s, eo⟩
        cases eo <;> simp only [] <;> split <;> rfl
  · intro h1 h2 h3 h4
    unfold getContentType
    split <;> simp_all

/-- Witness for C8 amended at the format `flac`, which is outside the
explicit mapping and hits the default. -/
theorem contentType_mapping_witness :
    lowerString "flac" ≠ "mp3" ∧ getContentType "flac" = "audio/mpeg" :=
  ⟨by decide,
    (contentType_mapping "flac" [] none "flac").2.2.2.2.2.2
      (by decide) (by decide) (by decide) (by decide)⟩

/-- C4: with every probe reporting unavailable or throwing, `convert`
fails with the `ServiceUnavailable`-coded error, invokes no provider's
convert, and marks the conversion Failed with progress 0 — but the
`POST /tts/convert` pipeline answers 500, not the documented 503: the
thrown `TTSError` is not an `ApiError` and its `name` is `TTSError`, so
the `errorHandler` middleware falls through to the generic 500 branch. -/
theorem no_candidates_failure_and_http_status :
    (convert emptyState "conv1" 0 "Hello world" provAllDown).1.result =
      Except.error noProvidersAvailableError ∧
    noProvidersAvailableError.code = TTSErrorCode.serviceUnavailable ∧
    (convert emptyState "conv1" 0 "Hello world" provAllDown).1.attempted = [] ∧
    (getStatus (convert emptyState "conv1" 0 "Hello world" provAllDown).2
        "conv1").map (fun cs => (cs.status, cs.progress)) =
      some (ProcessingStatus.failed, 0) ∧
    convertEndpointStatus emptyState "conv1" 0 "Hello world" provAllDown = 500 ∧
    convertEndpointStatus emptyState "conv1" 0 "Hello world" provAllDown ≠ 503 :=
  ⟨rfl, rfl, rfl, rfl, rfl, by decide⟩

theorem attemptConversion_of_not_succeeds (q : Provider)
    (hq : attemptSucceeds q = false) :
    attemptConversion q = Except.error (attemptErrorOf q) := by
  cases hqa : q.attempt with
  | success r' => rw [attemptSucceeds, hqa] at hq; exact absurd hq (by simp)
  | failure e => simp [attemptConversion, attemptErrorOf, hqa]
  | timesOut => simp [attemptConversion, attemptErrorOf, hqa]

theorem tryProviders_first_success (pre : List Provider) (p : Provider)
    (post : List Provider) (r : TTSConversionResult) (le : Option TTSError)
    (hpre : ∀ q ∈ pre, attemptSucceeds q = false)
    (hp : p.attempt = AttemptOutcome.success r) :
    tryProviders (pre ++ p :: post) le =
      (Except.ok r, pre.map (fun q => q.name) ++ [p.name],
       pre.map attemptErrorOf) := by
  induction pre generalizing le with
  | nil =>
    simp [tryProviders, attemptConversion, hp]
  | cons q rest ih =>
    have hq : attemptSucceeds q = false := hpre q (by simp)
    have hqe := attemptConversion_of_not_succeeds q hq
    have ihr := ih (some (attemptErrorOf q))
      (fun x hx => hpre x (List.mem_cons_of_mem _ hx))
    simp [tryProviders, hqe, ihr]

/-- C1: when the candidate list is ordered ascending by priority and the
candidate `p` is the first whose convert attempt succeeds within the
timeout, `convert` invoked convert on every candidate before `p` (each
failure being recorded as `lastError`), invokes no candidate after `p`,
sets the status to Completed with progress 100, stores the result for
later retrieval, and returns `p`'s result. -/
theorem first_successful_candidate_wins
    (st : OrchestratorState) (conversionId : String) (now : Nat)
    (content : String) (providers : List Provider)
    (pre : List Provider) (p : Provider) (post : List Provider)
    (r : TTSConversionResult)
    (hval : validateContent content = none)
    (_hsorted : (getAvailableProviders providers).Pairwise
      (fun a b => a.priority ≤ b.priority))
    (hsplit : getAvailableProviders providers = pre ++ p :: post)
    (hpre : ∀ q ∈ pre, attemptSucceeds q = false)
    (hp : p.attempt = AttemptOutcome.success r) :
    (convert st conversionId now content providers).1.result = Except.ok r ∧
    (convert st conversionId now content providers).1.attempted =
      pre.map (fun q => q.name) ++ [p.name] ∧
    (convert st conversionId now content providers).1.recordedErrors =
      pre.map attemptErrorOf ∧
    (convert st conversionId now content providers).1.trace.getLast? =
      some (ProcessingStatus.completed, 100) ∧
    (getStatus (convert st conversionId now content providers).2
        conversionId).map (fun cs => (cs.status, cs.progress)) =
      some (ProcessingStatus.completed, 100) ∧
    getResult (convert st conversionId now content providers).2
      conversionId = some r := by
  have hne : (pre ++ p :: post).isEmpty = false := by
    cases pre <;> rfl
  have hloop := tryProviders_first_success pre p post r none hpre hp
  rw [convert, hval]
  dsimp only
  rw [hsplit, hne]
  simp only [Bool.false_eq_true, if_false]
  rw [hloop]
  dsimp only
  refine ⟨rfl, rfl, rfl, ?_, ?_, ?_⟩
  · exact List.getLast?_concat _
  · rw [getStatus, getEntry_setEntry_self]
    rfl
  · rw [getResult, getEntry_setEntry_self]

/-- Witness for C1 at Scenario A: P1 (priority 1) times out, P2
(priority 2) succeeds; P1 was attempted and its timeout recorded, P2's
result is returned and stored, status is Completed at progress 100. -/
theorem first_successful_candidate_wins_witness :
    validateContent "Hello world" = none ∧
    getAvailableProviders [provP1, provP2] = [provP1] ++ provP2 :: [] ∧
    provP2.attempt = AttemptOutcome.success resultP2 ∧
    ((convert emptyState "cA" 0 "Hello world" [provP1, provP2]).1.result =
        Except.ok resultP2 ∧
      (convert emptyState "cA" 0 "Hello world" [provP1, provP2]).1.attempted =
        [provP1].map (fun q => q.name) ++ [provP2.name] ∧
      (convert emptyState "cA" 0 "Hello world" [provP1, provP2]).1.recordedErrors =
        [provP1].map attemptErrorOf ∧
      (convert emptyState "cA" 0 "Hello world" [provP1, provP2]).1.trace.getLast? =
        some (ProcessingStatus.completed, 100) ∧
      (getStatus (convert emptyState "cA" 0 "Hello world" [provP1, provP2]).2
          "cA").map (fun cs => (cs.status, cs.progress)) =
        some (ProcessingStatus.completed, 100) ∧
      getResult (convert emptyState "cA" 0 "Hello world" [provP1, provP2]).2
        "cA" = some resultP2) :=
  ⟨by decide, by decide, rfl,
    first_successful_candidate_wins emptyState "cA" 0 "Hello world"
      [provP1, provP2] [provP1] provP2 [] resultP2 (by decide) (by decide)
      (by decide) (by decide) rfl⟩

theorem cleanupDirectory_eq_filter (files : List StoredFile) (cutoffTime : Int) :
    (cleanupDirectory files cutoffTime).1 =
      files.filter (fun f => !(decide ((f.mtime : Int) < cutoffTime))) ∧
    (cleanupDirectory files cutoffTime).2 =
      (files.filter (fun f => decide ((f.mtime : Int) < cutoffTime))).length := by
  induction files with
  | nil => exact ⟨rfl, rfl⟩
  | cons f rest ih =>
    by_cases hf : (f.mtime : Int) < cutoffTime <;>
      simp [cleanupDirectory, List.filter_cons, hf, ih.1, ih.2]

/-- C6: `cleanup` removes exactly the entries strictly older than the
cutoff — status/result pairs by `startTime` in the orchestrator, stored
files by modification time in `cleanupDirectory` — and a second invocation
with the same clock reading and the same max age removes nothing: the
orchestrator state is unchanged and the directory sweep deletes 0 files. -/
theorem cleanup_removes_exactly_old_then_nothing
    (st : OrchestratorState) (now olderThanMinutes : Nat) :
    (∀ e, e ∈ (cleanup st now olderThanMinutes).activeConversions ↔
      (e ∈ st.activeConversions ∧ statusIsOld now olderThanMinutes e.2 = false)) ∧
    (∀ e, e ∈ (cleanup st now olderThanMinutes).conversionResults ↔
      (e ∈ st.conversionResults ∧
        ¬ ∃ cs, (e.1, cs) ∈ st.activeConversions ∧
          statusIsOld now olderThanMinutes cs = true)) ∧
    cleanup (cleanup st now olderThanMinutes) now olderThanMinutes =
      cleanup st now olderThanMinutes ∧
    (∀ (files : List StoredFile) (cutoffTime : Int),
      (cleanupDirectory files cutoffTime).1 =
        files.filter (fun f => !(decide ((f.mtime : Int) < cutoffTime))) ∧
      (cleanupDirectory files cutoffTime).2 =
        (files.filter (fun f => decide ((f.mtime : Int) < cutoffTime))).length ∧
      (cleanupDirectory (cleanupDirectory files cutoffTime).1 cutoffTime).2 = 0) := by
  refine ⟨?_, ?_, ?_, ?_⟩
  · intro e
    simp [cleanup, List.mem_filter]
  · intro e
    simp only [cleanup, List.mem_filter, Bool.not_eq_true']
    have hiff : ((st.activeConversions.filter
        (fun x => statusIsOld now olderThanMinutes x.2)).map
          (fun x => x.1)).contains e.1 = true ↔
        ∃ cs, (e.1, cs) ∈ st.activeConversions ∧
          statusIsOld now olderThanMinutes cs = true := by
      rw [List.elem_iff]
      constructor
      · intro hm
        obtain ⟨y, hy, hyx⟩ := List.mem_map.mp hm
        have h2 := List.mem_filter.mp hy
        exact ⟨y.2, ⟨by rw [← hyx]; exact h2.1, h2.2⟩⟩
      · rintro ⟨cs, hcs, hold⟩
        exact List.mem_map.mpr ⟨(e.1, cs), List.mem_filter.mpr ⟨hcs, hold⟩, rfl⟩
    constructor
    · rintro ⟨hmem, hc⟩
      refine ⟨hmem, fun hex => ?_⟩
      rw [← hiff] at hex
      rw [hex] at hc
      exact absurd hc (by simp)
    · rintro ⟨hmem, hno⟩
      refine ⟨hmem, ?_⟩
      rw [Bool.eq_false_iff]
      intro htrue
      exact hno (hiff.mp htrue)
  · have hcontra : ∀ b : Bool, (b && !b) = false := by decide
    have hself : ∀ b : Bool, (!b && !b) = !b := by decide
    set st2 := cleanup st now olderThanMinutes with hst2
    have hnil : st2.activeConversions.filter
        (fun e => statusIsOld now olderThanMinutes e.2) = [] := by
      rw [hst2]
      simp only [cleanup]
      rw [List.filter_filter]
      simp [hcontra]
    have hact : st2.activeConversions.filter
        (fun e => !(statusIsOld now olderThanMinutes e.2)) =
        st2.activeConversions := by
      rw [hst2]
      simp only [cleanup]
      rw [List.filter_filter]
      simp [hself]
    show cleanup st2 now olderThanMinutes = st2
    rw [cleanup]
    rw [hact, hnil]
    simp
  · intro files cutoffTime
    refine ⟨(cleanupDirectory_eq_filter files cutoffTime).1,
      (cleanupDirectory_eq_filter files cutoffTime).2, ?_⟩
    rw [(cleanupDirectory_eq_filter files cutoffTime).1,
      (cleanupDirectory_eq_filter _ cutoffTime).2]
    rw [List.filter_filter]
    have hff : ∀ f : StoredFile,
        (decide ((f.mtime : Int) < cutoffTime) &&
          !(decide ((f.mtime : Int) < cutoffTime))) = false := by
      intro f; cases decide ((f.mtime : Int) < cutoffTime) <;> rfl
    simp [hff]

/-- Witness for C6 at a concrete state holding one old and one recent
conversion: the recent entry survives, the second sweep changes nothing,
and the directory sweep deletes 0 files the second time. -/
theorem cleanup_witness :
    ("new", csNew) ∈ (cleanup stCleanup 1000000000 1).activeConversions ∧
    cleanup (cleanup stCleanup 1000000000 1) 1000000000 1 =
      cleanup stCleanup 1000000000 1 ∧
    (cleanupDirectory (cleanupDirectory filesCleanup 999940000).1 999940000).2 = 0 :=
  ⟨((cleanup_removes_exactly_old_then_nothing stCleanup 1000000000 1).1
      ("new", csNew)).mpr ⟨by decide, by decide⟩,
   (cleanup_removes_exactly_old_then_nothing stCleanup 1000000000 1).2.2.1,
   ((cleanup_removes_exactly_old_then_nothing stCleanup 1000000000 1).2.2.2
      filesCleanup 999940000).2.2⟩

theorem stepAllowed_terminal_false (s x : ProcessingStatus)
    (h : isTerminal s = true) : stepAllowed s x = false := by
  cases s with
  | pending => simp [isTerminal] at h
  | processing => simp [isTerminal] at h
  | completed => cases x <;> rfl
  | failed => cases x <;> rfl

theorem terminal_only_last {tr : List (ProcessingStatus × Nat)}
    (h : List.Chain' traceStep tr) (i : Nat) (a : ProcessingStatus × Nat)
    (hget : tr.get? i = some a) (hterm : isTerminal a.1 = true) :
    i = tr.length - 1 := by
  have hi : i < tr.length := (List.get?_eq_some.mp hget).1
  by_contra hne
  have hi1 : i < tr.length - 1 := by omega
  have hrel := List.chain'_iff_get.mp h i hi1
  have hia : tr.get ⟨i, hi⟩ = a := by
    rw [List.get?_eq_get hi] at hget
    exact Option.some_inj.mp hget
  have : stepAllowed a.1 (tr.get ⟨i + 1, by omega⟩).1 = true := by
    rw [← hia]
    exact hrel.1
  rw [stepAllowed_terminal_false a.1 _ hterm] at this
  exact absurd this (by simp)

theorem chain_replicate_processing (k : Nat) (t : ProcessingStatus × Nat)
    (h1 : stepAllowed ProcessingStatus.processing t.1 = true)
    (h2 : isTerminal t.1 = false → 50 ≤ t.2) :
    List.Chain' traceStep
      (List.replicate k (ProcessingStatus.processing, 50) ++ [t]) := by
  induction k with
  | zero => exact List.chain'_singleton t
  | succ k ih =>
    rw [List.replicate_succ, List.cons_append]
    refine List.chain'_cons'.mpr ⟨?_, ih⟩
    intro b hb
    cases k with
    | zero =>
      simp only [List.replicate, List.nil_append, List.head?_cons,
        Option.mem_def, Option.some_inj] at hb
      subst hb
      exact ⟨h1, h2⟩
    | succ k2 =>
      simp only [List.replicate_succ, List.cons_append, List.head?_cons,
        Option.mem_def, Option.some_inj] at hb
      subst hb
      exact ⟨rfl, fun _ => le_refl 50⟩

theorem chain_processing_block (k : Nat) (t : ProcessingStatus × Nat)
    (h1 : stepAllowed ProcessingStatus.processing t.1 = true)
    (ht : isTerminal t.1 = true) :
    List.Chain' traceStep
      ([(ProcessingStatus.pending, 0), (ProcessingStatus.processing, 10),
        (ProcessingStatus.processing, 30)] ++
        (List.replicate k (ProcessingStatus.processing, 50) ++ [t])) := by
  have hvac : isTerminal t.1 = false → 50 ≤ t.2 := by
    intro hf
    rw [hf] at ht
    exact absurd ht (by simp)
  simp only [List.cons_append, List.nil_append]
  refine List.chain'_cons.mpr ⟨⟨rfl, fun _ => by omega⟩, ?_⟩
  refine List.chain'_cons.mpr ⟨⟨rfl, fun _ => by omega⟩, ?_⟩
  refine List.chain'_cons'.mpr ⟨?_, chain_replicate_processing k t h1 hvac⟩
  intro b hb
  cases k with
  | zero =>
    simp only [List.replicate, List.nil_append, List.head?_cons,
      Option.mem_def, Option.some_inj] at hb
    subst hb
    exact ⟨h1, fun hf => absurd ht (by simp [hf])⟩
  | succ k2 =>
    simp only [List.replicate_succ, List.cons_append, List.head?_cons,
      Option.mem_def, Option.some_inj] at hb
    subst hb
    exact ⟨rfl, fun _ => by omega⟩

/-- C7: along every `convert` run, the conversion's status record steps
only along the machine `Pending → Processing → (Completed | Failed)`
(with the direct `Pending → Failed` used for validation failures and
`Processing → Processing` progress updates), progress never decreases on
any step that does not enter a terminal state, and a terminal status is
only ever the last entry of the trace (Completed/Failed are absorbing). -/
theorem conversion_status_state_machine (st : OrchestratorState)
    (conversionId : String) (now : Nat) (content : String)
    (providers : List Provider) :
    List.Chain' traceStep
      (convert st conversionId now content providers).1.trace ∧
    (convert st conversionId now content providers).1.trace.head? =
      some (ProcessingStatus.pending, 0) ∧
    (∀ i a, (convert st conversionId now content providers).1.trace.get? i =
        some a → isTerminal a.1 = true →
      i = (convert st conversionId now content providers).1.trace.length - 1) := by
  have hmain : List.Chain' traceStep
      (convert st conversionId now content providers).1.trace ∧
      (convert st conversionId now content providers).1.trace.head? =
        some (ProcessingStatus.pending, 0) := by
    cases hv : validateContent content with
    | some e =>
      rw [convert, hv]
      exact ⟨List.chain'_pair.mpr ⟨rfl, fun hf => by simp [isTerminal] at hf⟩, rfl⟩
    | none =>
      rw [convert, hv]
      dsimp only
      cases he : (getAvailableProviders providers).isEmpty with
      | true =>
        rw [if_pos rfl]
        refine ⟨List.chain'_cons.mpr ⟨⟨rfl, fun _ => by omega⟩, ?_⟩, rfl⟩
        exact List.chain'_pair.mpr ⟨rfl, fun hf => by simp [isTerminal] at hf⟩
      | false =>
        rw [if_neg (by simp)]
        cases hl : (tryProviders (getAvailableProviders providers) none).1 with
        | error e =>
          dsimp only
          rw [List.map_const', List.append_assoc]
          exact ⟨chain_processing_block _ _ rfl rfl, rfl⟩
        | ok r =>
          dsimp only
          rw [List.map_const', List.append_assoc]
          exact ⟨chain_processing_block _ _ rfl rfl, rfl⟩
  exact ⟨hmain.1, hmain.2, fun i a hg ht => terminal_only_last hmain.1 i a hg ht⟩

/-- Witness for C7 at Scenario A: the recorded trace satisfies the
state-machine chain, starts Pending at 0, and its terminal entry (found at
index 5) is the last. -/
theorem conversion_status_state_machine_witness :
    List.Chain' traceStep
      (convert emptyState "cA" 0 "Hello world" [provP1, provP2]).1.trace ∧
    (convert emptyState "cA" 0 "Hello world" [provP1, provP2]).1.trace.head? =
      some (ProcessingStatus.pending, 0) ∧
    (5 : Nat) =
      (convert emptyState "cA" 0 "Hello world" [provP1, provP2]).1.trace.length - 1 :=
  ⟨(conversion_status_state_machine emptyState "cA" 0 "Hello world"
      [provP1, provP2]).1,
   (conversion_status_state_machine emptyState "cA" 0 "Hello world"
      [provP1, provP2]).2.1,
   (conversion_status_state_machine emptyState "cA" 0 "Hello world"
      [provP1, provP2]).2.2 5 (ProcessingStatus.completed, 100) rfl rfl⟩

/-- C9: saving a buffer whose metadata format is outside mp3/wav/ogg (for
example `opus`) under a fresh id writes the bytes under `id.format`, yet
immediately afterwards `getAudioFile` returns null and `audioFileExists`
returns false — `findAudioFile` only probes the extensions mp3, wav and
ogg — and `deleteAudioFile` leaves the audio bytes in place (it can only
remove the sidecar metadata), so the saved audio is unreachable. -/
theorem foreign_format_unreachable_after_save (fs : FileStore)
    (audioId : String) (audioBuffer : List Nat) (format : String)
    (duration maxFileSize : Nat) (fs2 : FileStore)
    (hfmt : format ∉ possibleExtensions)
    (hfresh : ∀ ext ∈ possibleExtensions,
      getEntry fs.files (audioFileName audioId ext) = none)
    (hsave : saveAudioFile fs audioId audioBuffer format duration maxFileSize =
      Except.ok fs2) :
    (format ≠ "meta" →
      getEntry fs2.files (audioFileName audioId format) =
        some (FileContent.audio audioBuffer)) ∧
    getAudioFile fs2 audioId = none ∧
    audioFileExists fs2 audioId = false ∧
    (format ≠ "meta" →
      getEntry ((deleteAudioFile fs2 audioId).1).files
        (audioFileName audioId format) =
        some (FileContent.audio audioBuffer)) := by
  by_cases hsize : audioBuffer.length > maxFileSize
  · simp [saveAudioFile, hsize] at hsave
  · simp only [saveAudioFile, hsize, if_neg, ite_false, Except.ok.injEq,
      if_false] at hsave
    subst hsave
    have hne_meta : ∀ h : format ≠ "meta",
        audioFileName audioId format ≠ metaFileName audioId := by
      intro h hc
      rw [audioFileName, metaFileName] at hc
      exact h (congrArg FileName.ext hc)
    have hstored : ∀ h : format ≠ "meta",
        getEntry (setEntry (setEntry fs.files (audioFileName audioId format)
            (FileContent.audio audioBuffer)) (metaFileName audioId)
            (FileContent.meta
              { size := audioBuffer.length, format := format,
                duration := duration }))
          (audioFileName audioId format) =
        some (FileContent.audio audioBuffer) := by
      intro h
      rw [getEntry_setEntry_ne _ _ _ _ (hne_meta h), getEntry_setEntry_self]
    have hnone : ∀ ext ∈ possibleExtensions,
        getEntry (setEntry (setEntry fs.files (audioFileName audioId format)
            (FileContent.audio audioBuffer)) (metaFileName audioId)
            (FileContent.meta
              { size := audioBuffer.length, format := format,
                duration := duration }))
          (audioFileName audioId ext) = none := by
      intro ext hext
      have hne1 : audioFileName audioId ext ≠ metaFileName audioId := by
        intro hc
        rw [audioFileName, metaFileName] at hc
        have hxe : ext = "meta" := congrArg FileName.ext hc
        rw [possibleExtensions] at hext
        simp only [List.mem_cons, List.not_mem_nil, or_false] at hext
        rcases hext with rfl | rfl | rfl <;> exact absurd hxe (by decide)
      have hne2 : audioFileName audioId ext ≠ audioFileName audioId format := by
        intro hc
        rw [audioFileName, audioFileName] at hc
        have hef : ext = format := congrArg FileName.ext hc
        exact hfmt (hef ▸ hext)
      rw [getEntry_setEntry_ne _ _ _ _ hne1, getEntry_setEntry_ne _ _ _ _ hne2]
      exact hfresh ext hext
    have h1 := hnone "mp3" (by rw [possibleExtensions]; simp)
    have h2 := hnone "wav" (by rw [possibleExtensions]; simp)
    have h3 := hnone "ogg" (by rw [possibleExtensions]; simp)
    have hfind : findAudioFile
        { files := setEntry (setEntry fs.files (audioFileName audioId format)
            (FileContent.audio audioBuffer)) (metaFileName audioId)
            (FileContent.meta
              { size := audioBuffer.length, format := format,
                duration := duration }) } audioId = none := by
      rw [findAudioFile, possibleExtensions]
      simp [List.findSome?_cons, h1, h2, h3]
    refine ⟨hstored, ?_, ?_, ?_⟩
    · rw [getAudioFile, hfind]
    · rw [audioFileExists, hfind]
      rfl
    · intro h
      have hmeta : getEntry (setEntry (setEntry fs.files
          (audioFileName audioId format) (FileContent.audio audioBuffer))
          (metaFileName audioId)
          (FileContent.meta
            { size := audioBuffer.length, format := format,
              duration := duration }))
          (metaFileName audioId) =
          some (FileContent.meta
            { size := audioBuffer.length, format := format,
              duration := duration }) := getEntry_setEntry_self _ _ _
      rw [deleteAudioFile, hfind]
      simp only [hmeta, Option.isSome_some, if_true, ite_true]
      rw [getEntry_removeEntry_ne _ _ _ (hne_meta h)]
      exact hstored h

/-- Witness for C9: a 3-byte `opus` buffer saved under fresh id `a1`; the
bytes sit under `a1.opus`, yet read, exists and delete cannot reach them. -/
theorem foreign_format_unreachable_witness :
    ("opus" ∉ possibleExtensions) ∧
    saveAudioFile { files := [] } "a1" [1, 2, 3] "opus" 5 100 =
      Except.ok fsSavedOpus ∧
    (getEntry fsSavedOpus.files (audioFileName "a1" "opus") =
        some (FileContent.audio [1, 2, 3]) ∧
      getAudioFile fsSavedOpus "a1" = none ∧
      audioFileExists fsSavedOpus "a1" = false ∧
      getEntry ((deleteAudioFile fsSavedOpus "a1").1).files
        (audioFileName "a1" "opus") = some (FileContent.audio [1, 2, 3])) :=
  ⟨by decide, rfl,
    (foreign_format_unreachable_after_save { files := [] } "a1" [1, 2, 3]
        "opus" 5 100 fsSavedOpus (by decide) (by decide) rfl).1
      (by decide),
    ((foreign_format_unreachable_after_save { files := [] } "a1" [1, 2, 3]
        "opus" 5 100 fsSavedOpus (by decide) (by decide) rfl).2.1),
    ((foreign_format_unreachable_after_save { files := [] } "a1" [1, 2, 3]
        "opus" 5 100 fsSavedOpus (by decide) (by decide) rfl).2.2.1),
    ((foreign_format_unreachable_after_save { files := [] } "a1" [1, 2, 3]
        "opus" 5 100 fsSavedOpus (by decide) (by decide) rfl).2.2.2
      (by decide))⟩

theorem takeWhile_digits_append (ds es : List Char) (c : Char)
    (hd : ∀ x ∈ ds, x.isDigit = true) (hc : c.isDigit = false) :
    (ds ++ c :: es).takeWhile Char.isDigit = ds ∧
    (ds ++ c :: es).dropWhile Char.isDigit = c :: es := by
  induction ds with
  | nil => simp [List.takeWhile_cons, List.dropWhile_cons, hc]
  | cons d ds ih =>
    have hdd : d.isDigit = true := hd d (by simp)
    have ih' := ih (fun x hx => hd x (by simp [hx]))
    simp [List.takeWhile_cons, List.dropWhile_cons, hdd, ih'.1, ih'.2]

theorem takeWhile_digits_all (es : List Char)
    (he : ∀ x ∈ es, x.isDigit = true) :
    es.takeWhile Char.isDigit = es := by
  induction es with
  | nil => rfl
  | cons e es ih =>
    simp [List.takeWhile_cons, he e (by simp),
      ih (fun x hx => he x (by simp [hx]))]

theorem matchRangeAt_wellformed (ds es : List Char) (hds : ds ≠ [])
    (hd : ∀ x ∈ ds, x.isDigit = true) (he : ∀ x ∈ es, x.isDigit = true) :
    matchRangeAt ("bytes=".toList ++ (ds ++ '-' :: es)) = some (ds, es) := by
  have htake : ("bytes=".toList ++ (ds ++ '-' :: es)).take 6 =
      "bytes=".toList := rfl
  have hdrop : ("bytes=".toList ++ (ds ++ '-' :: es)).drop 6 =
      ds ++ '-' :: es := rfl
  have h1 := takeWhile_digits_append ds es '-' hd rfl
  have hempty : ds.isEmpty = false := by
    cases ds with
    | nil => exact absurd rfl hds
    | cons d ds => rfl
  rw [matchRangeAt, htake, if_pos rfl, hdrop, h1.1, h1.2, hempty]
  rw [if_neg (by simp)]
  show some (ds, List.takeWhile Char.isDigit es) = some (ds, es)
  rw [takeWhile_digits_all es he]

theorem searchRange_wellformed (ds es : List Char) (hds : ds ≠ [])
    (hd : ∀ x ∈ ds, x.isDigit = true) (he : ∀ x ∈ es, x.isDigit = true) :
    searchRange ("bytes=".toList ++ (ds ++ '-' :: es)) = some (ds, es) := by
  have hm : matchRangeAt ('b' :: ("ytes=".toList ++ (ds ++ '-' :: es))) =
      some (ds, es) := matchRangeAt_wellformed ds es hds hd he
  show searchRange ('b' :: ("ytes=".toList ++ (ds ++ '-' :: es))) = some (ds, es)
  rw [searchRange, hm]

/-- C3: for a stream request against an existing stored file, a well-formed
header `bytes=start-end` (digit captures; an empty end capture means
end-of-file) parses to its numeric bounds; a start or end outside
`[0, size-1]` or a start beyond the end yields 416, and otherwise the
response is 206 with `Content-Range: bytes start-end/size`,
`Content-Length = end-start+1`, and a body byte-identical to bytes
`start..end` inclusive of the stored buffer. -/
theorem range_request_bounds_and_slice (format : String)
    (audioBuffer : List Nat) (hdr : String) (s : Nat) (eo : Option Nat)
    (ds es : List Char) (hds : ds ≠ [])
    (hd : ∀ c ∈ ds, c.isDigit = true) (he : ∀ c ∈ es, c.isDigit = true)
    (hparse : parseRangeHeader hdr = some (s, eo)) :
    parseRangeHeader (String.mk ("bytes=".toList ++ (ds ++ '-' :: es))) =
      some (natOfDigits ds,
        if es.isEmpty then none else some (natOfDigits es)) ∧
    ((s ≥ audioBuffer.length ∨
        eo.getD (audioBuffer.length - 1) ≥ audioBuffer.length ∨
        s > eo.getD (audioBuffer.length - 1)) →
      (streamAudioFound format audioBuffer (some hdr)).status = 416 ∧
      (streamAudioFound format audioBuffer (some hdr)).errorCode =
        some "INVALID_RANGE") ∧
    (s < audioBuffer.length →
      eo.getD (audioBuffer.length - 1) < audioBuffer.length →
      s ≤ eo.getD (audioBuffer.length - 1) →
      (streamAudioFound format audioBuffer (some hdr)).status = 206 ∧
      (streamAudioFound format audioBuffer (some hdr)).contentRange =
        some ("bytes " ++ toString s ++ "-" ++
          toString (eo.getD (audioBuffer.length - 1)) ++ "/" ++
          toString audioBuffer.length) ∧
      (streamAudioFound format audioBuffer (some hdr)).contentLength =
        some (eo.getD (audioBuffer.length - 1) - s + 1) ∧
      (streamAudioFound format audioBuffer (some hdr)).body =
        some ((audioBuffer.drop s).take
          (eo.getD (audioBuffer.length - 1) - s + 1)) ∧
      (∀ i, i ≤ eo.getD (audioBuffer.length - 1) - s →
        ((audioBuffer.drop s).take
          (eo.getD (audioBuffer.length - 1) - s + 1)).get? i =
          audioBuffer.get? (s + i))) := by
  refine ⟨?_, ?_, ?_⟩
  · rw [parseRangeHeader,
      show (String.mk ("bytes=".toList ++ (ds ++ '-' :: es))).toList =
        "bytes=".toList ++ (ds ++ '-' :: es) from rfl,
      searchRange_wellformed ds es hds hd he]
  · intro hcond
    simp only [streamAudioFound, hparse]
    cases eo with
    | none =>
      simp only [Option.getD_none] at hcond
      rw [if_pos hcond]
      exact ⟨rfl, rfl⟩
    | some e =>
      simp only [Option.getD_some] at hcond
      rw [if_pos hcond]
      exact ⟨rfl, rfl⟩
  · intro h1 h2 h3
    simp only [streamAudioFound, hparse]
    cases eo with
    | none =>
      simp only [Option.getD_none] at h1 h2 h3 ⊢
      rw [if_neg (by omega)]
      have harith : audioBuffer.length - 1 + 1 - s =
          audioBuffer.length - 1 - s + 1 := by omega
      refine ⟨rfl, rfl, rfl, by rw [harith], ?_⟩
      intro i hi
      rw [List.get?_take (by omega), List.get?_drop]
    | some e =>
      simp only [Option.getD_some] at h1 h2 h3 ⊢
      rw [if_neg (by omega)]
      have harith : e + 1 - s = e - s + 1 := by omega
      refine ⟨rfl, rfl, rfl, by rw [harith], ?_⟩
      intro i hi
      rw [List.get?_take (by omega), List.get?_drop]

set_option maxRecDepth 8000 in
/-- Witness for C3 at Scenario C: a 1000-byte file with
`Range: bytes=100-199` answers 206, `Content-Range: bytes 100-199/1000`,
`Content-Length` 100. -/
theorem range_request_witness :
    parseRangeHeader "bytes=100-199" = some (100, some 199) ∧
    (streamAudioFound "mp3" (List.range 1000) (some "bytes=100-199")).status =
      206 ∧
    (streamAudioFound "mp3" (List.range 1000)
      (some "bytes=100-199")).contentRange = some "bytes 100-199/1000" ∧
    (streamAudioFound "mp3" (List.range 1000)
      (some "bytes=100-199")).contentLength = some 100 ∧
    (streamAudioFound "mp3" (List.range 1000)
      (some "bytes=100-199")).body =
      some ((List.range 1000).drop 100 |>.take 100) :=
  ⟨rfl,
   (range_request_bounds_and_slice "mp3" (List.range 1000) "bytes=100-199"
      100 (some 199) ['1', '0', '0'] ['1', '9', '9'] (by decide) (by decide)
      (by decide) rfl).2.2 (by simp) (by simp) (by simp) |>.1,
   ((range_request_bounds_and_slice "mp3" (List.range 1000) "bytes=100-199"
      100 (some 199) ['1', '0', '0'] ['1', '9', '9'] (by decide) (by decide)
      (by decide) rfl).2.2 (by simp) (by simp) (by simp) |>.2.1).trans
     (by decide),
   ((range_request_bounds_and_slice "mp3" (List.range 1000) "bytes=100-199"
      100 (some 199) ['1', '0', '0'] ['1', '9', '9'] (by decide) (by decide)
      (by decide) rfl).2.2 (by simp) (by simp) (by simp) |>.2.2.1),
   ((range_request_bounds_and_slice "mp3" (List.range 1000) "bytes=100-199"
      100 (some 199) ['1', '0', '0'] ['1', '9', '9'] (by decide) (by decide)
      (by decide) rfl).2.2 (by simp) (by simp) (by simp) |>.2.2.2.1)⟩

theorem matchRangeAt_head_ne_b (c : Char) (cs : List Char) (hc : c ≠ 'b') :
    matchRangeAt (c :: cs) = none := by
  rw [matchRangeAt, if_neg]
  intro hcon
  rw [show (c :: cs).take 6 = c :: cs.take 5 from rfl] at hcon
  exact hc (List.cons.injEq _ _ _ _ ▸ hcon).1

theorem searchRange_no_b (cs : List Char) (h : ∀ c ∈ cs, c ≠ 'b') :
    searchRange cs = none := by
  induction cs with
  | nil => rfl
  | cons c rest ih =>
    rw [searchRange, matchRangeAt_head_ne_b c rest (h c (by simp))]
    exact ih (fun x hx => h x (by simp [hx]))

/-- C10: an HTTP suffix range `bytes=-N` never matches the range regex —
it requires at least one digit before the dash — so the stream endpoint
answers 400 `INVALID_RANGE_HEADER`, never 206 and never 416. -/
theorem suffix_range_header_rejected (format : String)
    (audioBuffer : List Nat) (es : List Char) (_hes : es ≠ [])
    (he : ∀ c ∈ es, c.isDigit = true) :
    (streamAudioFound format audioBuffer
      (some (String.mk ("bytes=-".toList ++ es)))).status = 400 ∧
    (streamAudioFound format audioBuffer
      (some (String.mk ("bytes=-".toList ++ es)))).errorCode =
      some "INVALID_RANGE_HEADER" ∧
    (streamAudioFound format audioBuffer
      (some (String.mk ("bytes=-".toList ++ es)))).status ≠ 206 ∧
    (streamAudioFound format audioBuffer
      (some (String.mk ("bytes=-".toList ++ es)))).status ≠ 416 := by
  have hfirst : matchRangeAt ("bytes=-".toList ++ es) = none := by
    rw [matchRangeAt,
      show ("bytes=-".toList ++ es).take 6 = "bytes=".toList from rfl,
      if_pos rfl,
      show ("bytes=-".toList ++ es).drop 6 = '-' :: es from rfl,
      show List.takeWhile Char.isDigit ('-' :: es) = [] from rfl]
    rfl
  have hrest : searchRange ("ytes=-".toList ++ es) = none := by
    apply searchRange_no_b
    intro c hcmem
    rw [List.mem_append] at hcmem
    rcases hcmem with hcm | hcm
    · simp only [show "ytes=-".toList = ['y', 't', 'e', 's', '=', '-'] from rfl,
        List.mem_cons, List.not_mem_nil, or_false] at hcm
      rcases hcm with rfl | rfl | rfl | rfl | rfl | rfl <;> decide
    · intro hcb
      subst hcb
      exact absurd (he 'b' hcm) (by decide)
  have hsearch : searchRange ("bytes=-".toList ++ es) = none := by
    show searchRange ('b' :: ("ytes=-".toList ++ es)) = none
    rw [searchRange,
      show matchRangeAt ('b' :: ("ytes=-".toList ++ es)) = none from hfirst]
    exact hrest
  have hparse : parseRangeHeader (String.mk ("bytes=-".toList ++ es)) = none := by
    rw [parseRangeHeader,
      show (String.mk ("bytes=-".toList ++ es)).toList =
        "bytes=-".toList ++ es from rfl,
      hsearch]
  have hresp : streamAudioFound format audioBuffer
      (some (String.mk ("bytes=-".toList ++ es))) =
      { status := 400, contentType := getContentType format,
        contentRange := none, contentLength := none, body := none,
        errorCode := some "INVALID_RANGE_HEADER" } := by
    simp only [streamAudioFound, hparse]
  rw [hresp]
  exact ⟨rfl, rfl, (by decide : (400 : Nat) ≠ 206),
    (by decide : (400 : Nat) ≠ 416)⟩

/-- Witness for C10 at `Range: bytes=-50`: 400 `INVALID_RANGE_HEADER`,
neither 206 nor 416. -/
theorem suffix_range_header_rejected_witness :
    String.mk ("bytes=-".toList ++ ['5', '0']) = "bytes=-50" ∧
    ((streamAudioFound "mp3" [0, 1, 2]
        (some (String.mk ("bytes=-".toList ++ ['5', '0'])))).status = 400 ∧
      (streamAudioFound "mp3" [0, 1, 2]
        (some (String.mk ("bytes=-".toList ++ ['5', '0'])))).errorCode =
        some "INVALID_RANGE_HEADER" ∧
      (streamAudioFound "mp3" [0, 1, 2]
        (some (String.mk ("bytes=-".toList ++ ['5', '0'])))).status ≠ 206 ∧
      (streamAudioFound "mp3" [0, 1, 2]
        (some (String.mk ("bytes=-".toList ++ ['5', '0'])))).status ≠ 416) :=
  ⟨rfl, suffix_range_header_rejected "mp3" [0, 1, 2] ['5', '0'] (by decide)
    (by decide)⟩
